import Mathlib

/-!
Verification of the tonic-otel-layer metrics middleware (src/lib.rs).

The middleware wraps a tower `Service`: `MetricsService::call` parses the
request URI path into `(service, method)` with `rsplit_once("/")` (panicking
when no separator is present), and `MetricsFuture::poll` records the call
lifecycle into four OpenTelemetry instruments: on the first poll it increments
`active_requests` and `started_total` and captures the start `Instant`
(guarded by the `started_at : Option<Instant>` latch); on the poll where the
inner future yields `Ready` it decrements `active_requests`, increments
`handled_total` and records the elapsed duration, labelled with the gRPC code
extracted from the response's `grpc-status` header via `tonic::Code::from_bytes`.

The embedding below models panics as `Option`/`Except`, `Instant` as a `Nat`
timestamp supplied at each poll, and the instrument mutations as an explicit
list of `MetricEvent`s emitted by each poll.  The inner future is modelled by
the sequence of results its successive polls produce.
-/

/-- The `tonic::Code` status enumeration. -/
inductive Code
  | ok
  | cancelled
  | unknown
  | invalidArgument
  | deadlineExceeded
  | notFound
  | alreadyExists
  | permissionDenied
  | resourceExhausted
  | failedPrecondition
  | aborted
  | outOfRange
  | unimplemented
  | internal
  | unavailable
  | dataLoss
  | unauthenticated
deriving DecidableEq, Repr

/-- Embedding of `tonic::Code::from_bytes`: the grpc-status wire value is the
decimal representation of the code (one byte for 0-9, two bytes for 10-16);
anything else is a parse error, which `tonic` maps to `Code::Unknown`. -/
def Code.fromBytes (s : String) : Code :=
  match s.data with
  | [c] =>
    if c = '0' then .ok
    else if c = '1' then .cancelled
    else if c = '2' then .unknown
    else if c = '3' then .invalidArgument
    else if c = '4' then .deadlineExceeded
    else if c = '5' then .notFound
    else if c = '6' then .alreadyExists
    else if c = '7' then .permissionDenied
    else if c = '8' then .resourceExhausted
    else if c = '9' then .failedPrecondition
    else .unknown
  | [c1, c2] =>
    if c1 = '1' then
      if c2 = '0' then .aborted
      else if c2 = '1' then .outOfRange
      else if c2 = '2' then .unimplemented
      else if c2 = '3' then .internal
      else if c2 = '4' then .unavailable
      else if c2 = '5' then .dataLoss
      else if c2 = '6' then .unauthenticated
      else .unknown
    else .unknown
  | _ => .unknown

/-- The string produced by Rust's `format!("{:?}", code)` on `tonic::Code`
(the derived `Debug` representation), used for the `grpc_code` label value. -/
def Code.debugRepr : Code → String
  | .ok => "Ok"
  | .cancelled => "Cancelled"
  | .unknown => "Unknown"
  | .invalidArgument => "InvalidArgument"
  | .deadlineExceeded => "DeadlineExceeded"
  | .notFound => "NotFound"
  | .alreadyExists => "AlreadyExists"
  | .permissionDenied => "PermissionDenied"
  | .resourceExhausted => "ResourceExhausted"
  | .failedPrecondition => "FailedPrecondition"
  | .aborted => "Aborted"
  | .outOfRange => "OutOfRange"
  | .unimplemented => "Unimplemented"
  | .internal => "Internal"
  | .unavailable => "Unavailable"
  | .dataLoss => "DataLoss"
  | .unauthenticated => "Unauthenticated"

/-- Split a character list at the FIRST occurrence of `c` (helper for
`rsplitOnce`, which works on the reversed list). -/
def splitOnceChar (c : Char) : List Char → Option (List Char × List Char)
  | [] => none
  | x :: xs =>
    if x = c then some ([], xs)
    else match splitOnceChar c xs with
      | none => none
      | some (a, b) => some (x :: a, b)

/-- Embedding of Rust's `str::rsplit_once("/")`: splits at the LAST occurrence
of the separator, returning (part before it, part after it), neither part
containing that occurrence; `none` when the string has no separator. -/
def rsplitOnce (s : String) : Option (String × String) :=
  match splitOnceChar '/' s.data.reverse with
  | none => none
  | some (a, b) => some (⟨b.reverse⟩, ⟨a.reverse⟩)

/-- An `http::Request`, reduced to the fields the middleware reads: the URI
path, plus an opaque body. -/
structure Request (B : Type) where
  uriPath : String
  body : B

/-- An `http::Response`, reduced to the fields the middleware reads: the header
map (`HeaderMap::get` returns the first value for a name), plus an opaque body. -/
structure Response (B : Type) where
  headers : List (String × String)
  body : B
deriving DecidableEq

/-- First value associated to a key in an association list; models both
`HeaderMap::get` and looking a label up in a `KeyValue` list. -/
def assocGet (l : List (String × String)) (k : String) : Option String :=
  (l.find? (fun p => p.1 = k)).map (fun p => p.2)

/-- The status-code computation of `MetricsFuture::poll` (lib.rs 166-171):
an inner error yields `Unknown`; a response's `grpc-status` header, when
present, is decoded with `Code::from_bytes`; an absent header yields `Ok`. -/
def responseCode {B E : Type} (res : Except E (Response B)) : Code :=
  match res with
  | .error _ => Code.unknown
  | .ok resp =>
    match assocGet resp.headers "grpc-status" with
    | some v => Code.fromBytes v
    | none => Code.ok

/-- One mutation of the four shared instruments, with the label list attached
to the data point. -/
inductive MetricEvent
  | activeAdd (delta : Int) (labels : List (String × String))
  | startedAdd (value : Nat) (labels : List (String × String))
  | handledAdd (value : Nat) (labels : List (String × String))
  | durationRecord (seconds : Nat) (labels : List (String × String))
deriving DecidableEq, Repr

/-- The `sm_labels` vector built at the top of every poll. -/
def smLabels (service method : String) : List (String × String) :=
  [("grpc_service", service), ("grpc_method", method)]

/-- The `smc_labels` array built at completion. -/
def smcLabels (service method code : String) : List (String × String) :=
  [("grpc_service", service), ("grpc_method", method), ("grpc_code", code)]

/-- The fields of `MetricsFuture` that carry per-call state (the pinned inner
future is modelled externally by the sequence of its poll results, and the
`Metrics` handle by the emitted `MetricEvent`s). -/
structure MetricsFuture where
  service : String
  method : String
  startedAt : Option Nat
deriving DecidableEq, Repr

/-- Result of one `poll`: the updated per-call state, the instrument mutations
performed during this poll in program order, and the `Poll` value returned
(`some res` for `Ready`, `none` for `Pending`). -/
structure PollResult (B E : Type) where
  state : MetricsFuture
  events : List MetricEvent
  output : Option (Except E (Response B))

/-- Embedding of `MetricsFuture::poll` (lib.rs 151-186).  `now` is the current
`Instant`; `inner` is what `this.inner.poll(cx)` returns during this poll. -/
def MetricsFuture.poll {B E : Type} (this : MetricsFuture) (now : Nat)
    (inner : Option (Except E (Response B))) : PollResult B E :=
  let sm := smLabels this.service this.method
  let startedAt := this.startedAt.getD now
  let startEvents : List MetricEvent :=
    match this.startedAt with
    | some _ => []
    | none => [.activeAdd 1 sm, .startedAdd 1 sm]
  match inner with
  | some res =>
    let code := responseCode res
    let smc := smcLabels this.service this.method code.debugRepr
    ⟨⟨this.service, this.method, some startedAt⟩,
      startEvents ++
        [.activeAdd (-1) sm, .handledAdd 1 smc, .durationRecord (now - startedAt) smc],
      some res⟩
  | none => ⟨⟨this.service, this.method, some startedAt⟩, startEvents, none⟩

/-- Result of driving a `MetricsFuture` through a sequence of polls. -/
structure RunResult (B E : Type) where
  state : MetricsFuture
  events : List MetricEvent
  output : Option (Except E (Response B))

/-- Drive the future through a trace of polls, each given as (current time,
inner poll result); events accumulate in order, and `output` is what the last
poll returned. -/
def runPolls {B E : Type} (st : MetricsFuture) :
    List (Nat × Option (Except E (Response B))) → RunResult B E
  | [] => ⟨st, [], none⟩
  | (t, r) :: rest =>
    let p := MetricsFuture.poll st t r
    let q := runPolls p.state rest
    ⟨q.state, p.events ++ q.events, if rest.isEmpty then p.output else q.output⟩

/-- Embedding of `MetricsService::call` (lib.rs 118-132): the path is parsed
with `rsplit_once("/")` and the `.expect` panic is modelled by `none`; only
when the parse succeeds is the inner service invoked and a future built
(`started_at` initialised to `None`). -/
def MetricsService.call {B F : Type} (innerCall : Request B → F)
    (req : Request B) : Option (MetricsFuture × F) :=
  match rsplitOnce req.uriPath with
  | none => none
  | some (service, method) => some (⟨service, method, none⟩, innerCall req)

/-- A whole call through the middleware: construct the future via `call`
(the inner service being modelled by the poll trace of the future it returns),
then drive it; `none` models the construction-time panic, under which no
future exists and no metric event is ever emitted. -/
def handleCall {B C E : Type}
    (innerCall : Request B → List (Nat × Option (Except E (Response C))))
    (req : Request B) :
    Option (List MetricEvent × Option (Except E (Response C))) :=
  match MetricsService.call innerCall req with
  | none => none
  | some (st, polls) =>
    let q := runPolls st polls
    some (q.events, q.output)

/-- Number of events satisfying a predicate. -/
def countP (p : MetricEvent → Bool) (evs : List MetricEvent) : Nat :=
  (evs.filter p).length

def isStartedAdd : MetricEvent → Bool
  | .startedAdd _ _ => true
  | _ => false

def isActiveInc : MetricEvent → Bool
  | .activeAdd d _ => d = 1
  | _ => false

def isActiveDec : MetricEvent → Bool
  | .activeAdd d _ => d = -1
  | _ => false

def isHandledAdd : MetricEvent → Bool
  | .handledAdd _ _ => true
  | _ => false

def isDurationRecord : MetricEvent → Bool
  | .durationRecord _ _ => true
  | _ => false

/-- Net contribution of an event list to `active_requests`. -/
def activeSum (evs : List MetricEvent) : Int :=
  (evs.map (fun e =>
    match e with
    | .activeAdd d _ => d
    | _ => 0)).sum

/-- The label list attached to an event. -/
def eventLabels : MetricEvent → List (String × String)
  | .activeAdd _ l => l
  | .startedAdd _ l => l
  | .handledAdd _ l => l
  | .durationRecord _ l => l

/-- The `grpc_code` label values of the data points of `handled_total` and
`handling_duration`, in emission order. -/
def codeLabels (evs : List MetricEvent) : List (Option String) :=
  evs.filterMap (fun e =>
    match e with
    | .handledAdd _ l => some (assocGet l "grpc_code")
    | .durationRecord _ l => some (assocGet l "grpc_code")
    | _ => none)

/-- The bucket literals of `DEFAULT_HISTOGRAM_BUCKETS` (lib.rs 27-29).  The
`f64` values are only moved around by the builder, never computed with, so the
decimal literals are embedded exactly as rationals. -/
def DEFAULT_HISTOGRAM_BUCKETS : List ℚ :=
  [0.001, 0.005, 0.01, 0.015, 0.020, 0.025, 0.50, 0.75, 1.0, 2.0]

/-- The state accumulated by `meter.u64_counter(name).with_description(d)`
(and likewise for the up/down counter) before `.build()` is called. -/
structure CounterBuilder where
  name : String
  description : String
deriving DecidableEq, Repr

/-- The state accumulated by
`meter.f64_histogram(name).with_description(d).with_boundaries(b)` before
`.build()` is called. -/
structure HistogramBuilder where
  name : String
  description : String
  boundaries : Option (List ℚ)
deriving DecidableEq, Repr

/-- An OpenTelemetry `Meter`, abstracted to the three instrument-creation
operations the middleware uses.  Creation is allowed to reject an instrument
(`Except`); the Rust code chains the `.build()` calls with no error handling,
so in the embedding a rejection aborts `build` monadically, exactly as an
uncaught creation failure would propagate out of the Rust `build`. -/
structure Meter (ε Cu Hi Ud : Type) where
  u64Counter : CounterBuilder → Except ε Cu
  f64Histogram : HistogramBuilder → Except ε Hi
  i64UpDownCounter : CounterBuilder → Except ε Ud

/-- An OpenTelemetry `MeterProvider`: yields a named meter. -/
structure MeterProvider (ε Cu Hi Ud : Type) where
  meter : String → Meter ε Cu Hi Ud

/-- The `Metrics` struct holding the four instrument handles (lib.rs 20-25). -/
structure Metrics (Cu Hi Ud : Type) where
  started_total : Cu
  handled_total : Cu
  handling_duration : Hi
  active_requests : Ud
deriving DecidableEq, Repr

/-- The `MetricsLayer` struct (lib.rs 14-17). -/
structure MetricsLayer (Cu Hi Ud : Type) where
  metrics : Metrics Cu Hi Ud
deriving DecidableEq, Repr

/-- The `MetricsLayerBuilder` struct (lib.rs 31-35). -/
structure MetricsLayerBuilder (ε Cu Hi Ud : Type) where
  buckets : Option (List ℚ)
  provider : Option (MeterProvider ε Cu Hi Ud)

/-- `MetricsLayerBuilder::new` (defaults: no buckets, no provider). -/
def MetricsLayerBuilder.new (ε Cu Hi Ud : Type) : MetricsLayerBuilder ε Cu Hi Ud :=
  ⟨none, none⟩

/-- `MetricsLayerBuilder::with_buckets`. -/
def MetricsLayerBuilder.with_buckets {ε Cu Hi Ud : Type}
    (b : MetricsLayerBuilder ε Cu Hi Ud) (buckets : List ℚ) :
    MetricsLayerBuilder ε Cu Hi Ud :=
  { b with buckets := some buckets }

/-- `MetricsLayerBuilder::with_provider`. -/
def MetricsLayerBuilder.with_provider {ε Cu Hi Ud : Type}
    (b : MetricsLayerBuilder ε Cu Hi Ud) (p : MeterProvider ε Cu Hi Ud) :
    MetricsLayerBuilder ε Cu Hi Ud :=
  { b with provider := some p }

/-- Embedding of `MetricsLayerBuilder::build` (lib.rs 53-87): take the given
provider or the global one, obtain the meter named "tonic", take the given
buckets or the defaults, then create the four instruments in program order.
`globalProvider` stands for `global::meter_provider()`. -/
def MetricsLayerBuilder.build {ε Cu Hi Ud : Type}
    (b : MetricsLayerBuilder ε Cu Hi Ud)
    (globalProvider : MeterProvider ε Cu Hi Ud) :
    Except ε (MetricsLayer Cu Hi Ud) :=
  let provider := b.provider.getD globalProvider
  let meter := provider.meter "tonic"
  let buckets := b.buckets.getD DEFAULT_HISTOGRAM_BUCKETS
  match meter.u64Counter
      ⟨"grpc_server_started", "Total number of RPCs started on the server."⟩ with
  | .error e => .error e
  | .ok started_total =>
  match meter.u64Counter
      ⟨"grpc_server_handled", "Total number of RPCs completed on the server."⟩ with
  | .error e => .error e
  | .ok handled_total =>
  match meter.f64Histogram
      ⟨"grpc_server_handling_duration_seconds", "Rpc call duration", some buckets⟩ with
  | .error e => .error e
  | .ok handling_duration =>
  match meter.i64UpDownCounter
      ⟨"grpc_server_active_requests", "Current number of active server requests."⟩ with
  | .error e => .error e
  | .ok active_requests =>
  .ok { metrics :=
    { started_total, handled_total, handling_duration, active_requests } }

/-- The free meter: every creation succeeds and returns its own request,
so the instruments of the built layer record exactly what the builder asked
the provider for. -/
def recordingMeter (ε : Type) : Meter ε CounterBuilder HistogramBuilder CounterBuilder :=
  ⟨Except.ok, Except.ok, Except.ok⟩

/-- Provider for the free meter. -/
def recordingProvider (ε : Type) :
    MeterProvider ε CounterBuilder HistogramBuilder CounterBuilder :=
  ⟨fun _ => recordingMeter ε⟩

/-- True when the first two labels of an event are exactly
`[("grpc_service", svc), ("grpc_method", mth)]` — byte-identity of the
service/method label pair. -/
def labelsMatch (svc mth : String) (e : MetricEvent) : Bool :=
  decide ((eventLabels e).take 2 = smLabels svc mth)

/-! Equation lemmas for `poll` and `runPolls`. -/

theorem poll_fresh_none {B E : Type} (s m : String) (t : Nat) :
    MetricsFuture.poll (B := B) (E := E) ⟨s, m, none⟩ t none =
      ⟨⟨s, m, some t⟩,
        [.activeAdd 1 (smLabels s m), .startedAdd 1 (smLabels s m)], none⟩ := rfl

theorem poll_fresh_some {B E : Type} (s m : String) (t : Nat)
    (res : Except E (Response B)) :
    MetricsFuture.poll ⟨s, m, none⟩ t (some res) =
      ⟨⟨s, m, some t⟩,
        [.activeAdd 1 (smLabels s m), .startedAdd 1 (smLabels s m),
         .activeAdd (-1) (smLabels s m),
         .handledAdd 1 (smcLabels s m (responseCode res).debugRepr),
         .durationRecord (t - t) (smcLabels s m (responseCode res).debugRepr)],
        some res⟩ := rfl

theorem poll_started_none {B E : Type} (s m : String) (u t : Nat) :
    MetricsFuture.poll (B := B) (E := E) ⟨s, m, some u⟩ t none =
      ⟨⟨s, m, some u⟩, [], none⟩ := rfl

theorem poll_started_some {B E : Type} (s m : String) (u t : Nat)
    (res : Except E (Response B)) :
    MetricsFuture.poll ⟨s, m, some u⟩ t (some res) =
      ⟨⟨s, m, some u⟩,
        [.activeAdd (-1) (smLabels s m),
         .handledAdd 1 (smcLabels s m (responseCode res).debugRepr),
         .durationRecord (t - u) (smcLabels s m (responseCode res).debugRepr)],
        some res⟩ := rfl

theorem runPolls_nil {B E : Type} (st : MetricsFuture) :
    runPolls (B := B) (E := E) st [] = ⟨st, [], none⟩ := rfl

theorem runPolls_cons {B E : Type} (st : MetricsFuture) (t : Nat)
    (r : Option (Except E (Response B)))
    (rest : List (Nat × Option (Except E (Response B)))) :
    runPolls st ((t, r) :: rest) =
      ⟨(runPolls (MetricsFuture.poll st t r).state rest).state,
       (MetricsFuture.poll st t r).events ++
         (runPolls (MetricsFuture.poll st t r).state rest).events,
       if rest.isEmpty then (MetricsFuture.poll st t r).output
       else (runPolls (MetricsFuture.poll st t r).state rest).output⟩ := rfl

theorem countP_append (p : MetricEvent → Bool) (a b : List MetricEvent) :
    countP p (a ++ b) = countP p a + countP p b := by
  simp [countP, List.filter_append]

/-- A pending poll of an already-started future is a no-op for the rest of
the trace. -/
theorem runPolls_started_pending_cons {B E : Type} (s m : String) (u t : Nat)
    (rest : List (Nat × Option (Except E (Response B)))) :
    runPolls ⟨s, m, some u⟩ ((t, none) :: rest) = runPolls ⟨s, m, some u⟩ rest := by
  cases rest with
  | nil => rfl
  | cons hd rest => rfl

/-- Once `started_at` is set, a trace of pending polls changes nothing:
no events, same state, and the remainder of the trace behaves identically. -/
theorem runPolls_started_pending {B E : Type} (ts : List Nat) (s m : String) (u : Nat)
    (tail : List (Nat × Option (Except E (Response B)))) :
    runPolls ⟨s, m, some u⟩
        (ts.map (fun v => (v, (none : Option (Except E (Response B))))) ++ tail) =
      runPolls ⟨s, m, some u⟩ tail := by
  induction ts with
  | nil => rfl
  | cons t ts ih =>
    rw [List.map_cons, List.cons_append, runPolls_started_pending_cons, ih]

/-- A pending first poll of a fresh future followed by at least one more poll:
the start events are emitted and the rest of the trace runs from the started
state. -/
theorem runPolls_fresh_pending_cons_ne {B E : Type} (s m : String) (t : Nat)
    (hd : Nat × Option (Except E (Response B)))
    (rest : List (Nat × Option (Except E (Response B)))) :
    runPolls ⟨s, m, none⟩ ((t, none) :: hd :: rest) =
      ⟨(runPolls ⟨s, m, some t⟩ (hd :: rest)).state,
       .activeAdd 1 (smLabels s m) :: .startedAdd 1 (smLabels s m) ::
         (runPolls ⟨s, m, some t⟩ (hd :: rest)).events,
       (runPolls ⟨s, m, some t⟩ (hd :: rest)).output⟩ := rfl

/-- A started future with no further polls after completion: a conforming
trace of pending polls followed by the `Ready` poll. -/
theorem runPolls_started_conforming {B E : Type} (s m : String) (u : Nat)
    (ts : List Nat) (t : Nat) (res : Except E (Response B)) :
    runPolls ⟨s, m, some u⟩
        (ts.map (fun v => (v, (none : Option (Except E (Response B))))) ++ [(t, some res)]) =
      ⟨⟨s, m, some u⟩,
        [.activeAdd (-1) (smLabels s m),
         .handledAdd 1 (smcLabels s m (responseCode res).debugRepr),
         .durationRecord (t - u) (smcLabels s m (responseCode res).debugRepr)],
        some res⟩ := by
  rw [runPolls_started_pending, runPolls_cons, poll_started_some, runPolls_nil]
  rfl

/-- The full conforming run from a fresh future: the start recordings fire at
the first poll (time `pendTs.headD t`), the completion recordings at the
`Ready` poll (time `t`), and the inner result is returned. -/
theorem runPolls_conforming {B E : Type} (s m : String) (pendTs : List Nat) (t : Nat)
    (res : Except E (Response B)) :
    runPolls ⟨s, m, none⟩
        (pendTs.map (fun v => (v, (none : Option (Except E (Response B))))) ++ [(t, some res)]) =
      ⟨⟨s, m, some (pendTs.headD t)⟩,
        [.activeAdd 1 (smLabels s m), .startedAdd 1 (smLabels s m),
         .activeAdd (-1) (smLabels s m),
         .handledAdd 1 (smcLabels s m (responseCode res).debugRepr),
         .durationRecord (t - pendTs.headD t) (smcLabels s m (responseCode res).debugRepr)],
        some res⟩ := by
  cases pendTs with
  | nil => rfl
  | cons t0 ts =>
    rw [List.map_cons, List.cons_append]
    rcases hm : (ts.map (fun v => (v, (none : Option (Except E (Response B))))) ++
        [(t, some res)]) with _ | ⟨hd, rest⟩
    · simp at hm
    · rw [runPolls_fresh_pending_cons_ne, ← hm, runPolls_started_conforming]
      rfl

/-- Once `started_at` is set, no poll ever records a start again: no
`started_total` increment, no `active_requests` increment, and the state
(including the captured start time) is unchanged by any further trace. -/
theorem runPolls_started_counts {B E : Type}
    (ps : List (Nat × Option (Except E (Response B)))) :
    ∀ (s m : String) (u : Nat),
      countP isStartedAdd (runPolls ⟨s, m, some u⟩ ps).events = 0 ∧
      countP isActiveInc (runPolls ⟨s, m, some u⟩ ps).events = 0 ∧
      (runPolls ⟨s, m, some u⟩ ps).state = ⟨s, m, some u⟩ := by
  induction ps with
  | nil => intro s m u; exact ⟨rfl, rfl, rfl⟩
  | cons hd ts ih =>
    intro s m u
    obtain ⟨t, r⟩ := hd
    obtain ⟨h1, h2, h3⟩ := ih s m u
    cases r with
    | none =>
      rw [runPolls_cons, poll_started_none]
      exact ⟨by simpa using h1, by simpa using h2, by simpa using h3⟩
    | some res =>
      rw [runPolls_cons, poll_started_some]
      refine ⟨?_, ?_, by simpa using h3⟩
      · show countP isStartedAdd (_ ++ _) = 0
        rw [countP_append, h1]
        rfl
      · show countP isActiveInc (_ ++ _) = 0
        rw [countP_append, h2]
        rfl

/-- Claim C1: for every call, the start recording — `active_requests` + 1 and
`started_total` + 1 with labels {grpc_service, grpc_method}, and the capture
of the start timestamp — happens exactly once, on the first poll of the
call's future, no matter how many times the future is subsequently polled. -/
theorem started_recorded_exactly_once {B E : Type} (s m : String)
    (t : Nat) (r : Option (Except E (Response B)))
    (ps : List (Nat × Option (Except E (Response B)))) :
    countP isStartedAdd (runPolls ⟨s, m, none⟩ ((t, r) :: ps)).events = 1 ∧
    countP isActiveInc (runPolls ⟨s, m, none⟩ ((t, r) :: ps)).events = 1 ∧
    (runPolls ⟨s, m, none⟩ ((t, r) :: ps)).state.startedAt = some t ∧
    (runPolls ⟨s, m, none⟩ ((t, r) :: ps)).events.take 2 =
      [MetricEvent.activeAdd 1 (smLabels s m), MetricEvent.startedAdd 1 (smLabels s m)] := by
  obtain ⟨h1, h2, h3⟩ := runPolls_started_counts ps s m t
  cases r with
  | none =>
    rw [runPolls_cons, poll_fresh_none]
    refine ⟨?_, ?_, ?_, ?_⟩
    · show countP isStartedAdd (_ ++ _) = 1
      rw [countP_append, h1]
      rfl
    · show countP isActiveInc (_ ++ _) = 1
      rw [countP_append, h2]
      rfl
    · show (runPolls (⟨s, m, some t⟩ : MetricsFuture) ps).state.startedAt = some t
      rw [h3]
    · rfl
  | some res =>
    rw [runPolls_cons, poll_fresh_some]
    refine ⟨?_, ?_, ?_, ?_⟩
    · show countP isStartedAdd (_ ++ _) = 1
      rw [countP_append, h1]
      rfl
    · show countP isActiveInc (_ ++ _) = 1
      rw [countP_append, h2]
      rfl
    · show (runPolls (⟨s, m, some t⟩ : MetricsFuture) ps).state.startedAt = some t
      rw [h3]
    · rfl

/-- Claim C2, counterexample: the completion recording is NOT idempotent
against spurious re-polls of an already-finished future.  The poll method has
no terminal-state guard: when the scheduler polls again after `Ready` (in
violation of the `Future` contract) and the inner future yields `Ready` once
more, `handled_total` is incremented a second time (and `active_requests`
decremented a second time) for a single terminal transition. -/
theorem spurious_repoll_records_handled_twice :
    countP isHandledAdd
        (runPolls (B := Unit) (E := Unit) ⟨"/pkg.Service", "Method", none⟩
          [(0, some (Except.ok ⟨[], ()⟩)), (1, some (Except.ok ⟨[], ()⟩))]).events = 2 ∧
    countP isActiveDec
        (runPolls (B := Unit) (E := Unit) ⟨"/pkg.Service", "Method", none⟩
          [(0, some (Except.ok ⟨[], ()⟩)), (1, some (Except.ok ⟨[], ()⟩))]).events = 2 := by
  constructor <;> rfl

/-- Claim C2 as amended: for every call whose future is not polled again
after it has yielded its result (the `Future` contract all schedulers obey),
the completion recording — `active_requests` decrement, `handled_total`
increment, duration record — executes exactly once; the code itself carries
no guard, so this uniqueness holds by the trace shape, not by idempotence. -/
theorem handled_recorded_once_without_spurious_repoll {B E : Type} (s m : String)
    (pendTs : List Nat) (t : Nat) (res : Except E (Response B)) :
    countP isHandledAdd
        (runPolls ⟨s, m, none⟩
          (pendTs.map (fun v => (v, (none : Option (Except E (Response B))))) ++
            [(t, some res)])).events = 1 ∧
    countP isDurationRecord
        (runPolls ⟨s, m, none⟩
          (pendTs.map (fun v => (v, (none : Option (Except E (Response B))))) ++
            [(t, some res)])).events = 1 ∧
    countP isActiveDec
        (runPolls ⟨s, m, none⟩
          (pendTs.map (fun v => (v, (none : Option (Except E (Response B))))) ++
            [(t, some res)])).events = 1 := by
  rw [runPolls_conforming]
  exact ⟨rfl, rfl, rfl⟩

/-- Claim C5: the wrapper returns the inner service's result to the caller
unchanged — the response (or error) yielded by the inner future is exactly
the output of the wrapped future, whatever it is. -/
theorem inner_result_passed_through_unchanged {B E : Type} (s m : String)
    (pendTs : List Nat) (t : Nat) (res : Except E (Response B)) :
    (runPolls ⟨s, m, none⟩
        (pendTs.map (fun v => (v, (none : Option (Except E (Response B))))) ++
          [(t, some res)])).output = some res := by
  rw [runPolls_conforming]

/-- Claim C6: a call that starts but whose future is dropped before
completion records nothing beyond the start events: no `handled_total`
increment, no duration record, no `active_requests` decrement (the
`MetricsFuture` struct has no `Drop` hook), so `active_requests` stays
permanently incremented by 1 for its label pair. -/
theorem abandoned_call_keeps_active_incremented {B E : Type} (s m : String)
    (t : Nat) (ts : List Nat) :
    (runPolls (B := B) (E := E) ⟨s, m, none⟩
        ((t :: ts).map (fun v => (v, none)))).events =
      [MetricEvent.activeAdd 1 (smLabels s m), MetricEvent.startedAdd 1 (smLabels s m)] ∧
    countP isHandledAdd
        ((runPolls (B := B) (E := E) ⟨s, m, none⟩
          ((t :: ts).map (fun v => (v, none)))).events) = 0 ∧
    countP isDurationRecord
        ((runPolls (B := B) (E := E) ⟨s, m, none⟩
          ((t :: ts).map (fun v => (v, none)))).events) = 0 ∧
    countP isActiveDec
        ((runPolls (B := B) (E := E) ⟨s, m, none⟩
          ((t :: ts).map (fun v => (v, none)))).events) = 0 ∧
    activeSum ((runPolls (B := B) (E := E) ⟨s, m, none⟩
        ((t :: ts).map (fun v => (v, none)))).events) = 1 := by
  have hev : (runPolls (B := B) (E := E) ⟨s, m, none⟩
      ((t :: ts).map (fun v => (v, none)))).events =
      [MetricEvent.activeAdd 1 (smLabels s m), MetricEvent.startedAdd 1 (smLabels s m)] := by
    rw [List.map_cons]
    cases hm : ts.map (fun v => (v, (none : Option (Except E (Response B))))) with
    | nil => rfl
    | cons hd rest =>
      rw [runPolls_fresh_pending_cons_ne, ← hm]
      have := runPolls_started_pending (B := B) (E := E) ts s m t []
      rw [List.append_nil] at this
      rw [this]
      rfl
  rw [hev]
  exact ⟨rfl, rfl, rfl, rfl, rfl⟩

/-- Claim C3: a request whose URI path contains no separator makes the call
fail at construction (`rsplit_once(..).expect(..)` panics, modelled as
`none`) before the inner service is invoked — the result does not depend on
the inner service at all — and before any metric event can exist for the
call (the whole handled call is `none`, producing no event list). -/
theorem malformed_path_fails_before_inner_and_metrics {B C E F : Type}
    (req : Request B) (h : rsplitOnce req.uriPath = none) :
    (∀ innerCall : Request B → F, MetricsService.call innerCall req = none) ∧
    (∀ innerPolls : Request B → List (Nat × Option (Except E (Response C))),
      handleCall innerPolls req = none) := by
  constructor <;> intro f <;> simp [MetricsService.call, handleCall, h]

/-- Witness for C3 at the concrete malformed path "no-separator". -/
theorem malformed_path_fails_witness :
    MetricsService.call (B := Unit) (F := Unit) (fun _ => ()) ⟨"no-separator", ()⟩ = none ∧
    handleCall (B := Unit) (C := Unit) (E := Unit) (fun _ => []) ⟨"no-separator", ()⟩ = none := by
  have h := malformed_path_fails_before_inner_and_metrics
    (B := Unit) (C := Unit) (E := Unit) (F := Unit) ⟨"no-separator", ()⟩ (by decide)
  exact ⟨h.1 _, h.2 _⟩

/-- Claim C4, counterexample: a response whose `grpc-status` header carries
the value "NOT_FOUND" is NOT labelled NOT_FOUND.  `tonic::Code::from_bytes`
parses the decimal wire representation of the code, so the nine-byte name
"NOT_FOUND" is unrecognized and decodes to `Unknown`: both the
`handled_total` and `handling_duration` data points carry grpc_code
"Unknown", not "NotFound". -/
theorem notfound_header_labelled_unknown :
    codeLabels
        (runPolls (B := Unit) (E := Unit) ⟨"/pkg.Service", "Method", none⟩
          [(0, some (Except.ok ⟨[("grpc-status", "NOT_FOUND")], ()⟩))]).events =
      [some "Unknown", some "Unknown"] ∧
    ("Unknown" : String) ≠ "NotFound" := by
  constructor
  · rfl
  · decide

/-- Claim C4 as amended: the grpc_code label of `handled_total` and
`handling_duration` is determined as follows — an inner error yields
`Unknown`; a response whose `grpc-status` header is present yields
`Code::from_bytes` of the header value, which decodes the decimal wire codes
(so "5" yields NOT_FOUND) and maps unrecognized values, including the name
"NOT_FOUND", to `Unknown`; an absent header yields `Ok`. -/
theorem grpc_code_label_rule {B E : Type} (s m : String)
    (pendTs : List Nat) (t : Nat) (res : Except E (Response B)) :
    codeLabels
        (runPolls ⟨s, m, none⟩
          (pendTs.map (fun v => (v, (none : Option (Except E (Response B))))) ++
            [(t, some res)])).events =
      [some (match res with
          | .error _ => Code.unknown
          | .ok resp =>
            match assocGet resp.headers "grpc-status" with
            | some v => Code.fromBytes v
            | none => Code.ok).debugRepr,
       some (match res with
          | .error _ => Code.unknown
          | .ok resp =>
            match assocGet resp.headers "grpc-status" with
            | some v => Code.fromBytes v
            | none => Code.ok).debugRepr] ∧
    Code.fromBytes "5" = Code.notFound ∧
    Code.fromBytes "NOT_FOUND" = Code.unknown := by
  refine ⟨?_, by decide, by decide⟩
  rw [runPolls_conforming]
  rfl

/-- Every event emitted by a single poll carries the state's own service and
method as its first two labels, and the poll never changes those fields. -/
theorem poll_labels {B E : Type} (s m : String) (x : Option Nat) (t : Nat)
    (r : Option (Except E (Response B))) :
    ((MetricsFuture.poll (⟨s, m, x⟩ : MetricsFuture) t r).events.all
      (labelsMatch s m)) = true := by
  cases x <;> cases r <;>
    simp [poll_fresh_none, poll_fresh_some, poll_started_none, poll_started_some,
      labelsMatch, eventLabels, smLabels, smcLabels]

/-- Every event of a whole trace carries the future's service and method as
its first two labels. -/
theorem runPolls_labels {B E : Type}
    (polls : List (Nat × Option (Except E (Response B)))) :
    ∀ (s m : String) (x : Option Nat),
      ((runPolls (⟨s, m, x⟩ : MetricsFuture) polls).events.all
        (labelsMatch s m)) = true := by
  induction polls with
  | nil => intro s m x; rfl
  | cons hd ts ih =>
    intro s m x
    obtain ⟨t, r⟩ := hd
    rw [runPolls_cons]
    show ((MetricsFuture.poll (⟨s, m, x⟩ : MetricsFuture) t r).events ++
        (runPolls (MetricsFuture.poll (⟨s, m, x⟩ : MetricsFuture) t r).state ts).events).all
        (labelsMatch s m) = true
    rw [List.all_append]
    have hst : (MetricsFuture.poll (⟨s, m, x⟩ : MetricsFuture) t r).state =
        ⟨s, m, some (x.getD t)⟩ := by
      cases x <;> cases r <;> rfl
    rw [hst]
    simp only [poll_labels, ih, Bool.and_self]

/-- Claim C7: the {grpc_service, grpc_method} label pair attached to the
`started_total` increment, the `active_requests` increment, and the
corresponding `active_requests` decrement (indeed to every data point of the
call) is byte-identical, and equals the single parse of the request path done
at call construction. -/
theorem labels_byte_identical_across_lifecycle {B C E : Type}
    (req : Request B) (svc mth : String)
    (innerPolls : Request B → List (Nat × Option (Except E (Response C))))
    (h : rsplitOnce req.uriPath = some (svc, mth)) :
    MetricsService.call innerPolls req =
      some (⟨svc, mth, none⟩, innerPolls req) ∧
    ∀ polls : List (Nat × Option (Except E (Response C))),
      ((runPolls (⟨svc, mth, none⟩ : MetricsFuture) polls).events.all
        (labelsMatch svc mth)) = true := by
  constructor
  · simp [MetricsService.call, h]
  · intro polls
    exact runPolls_labels polls svc mth none

/-- Witness for C7 at the concrete path "/pkg.Service/Method" and a concrete
two-poll trace. -/
theorem labels_byte_identical_witness :
    MetricsService.call
        (fun _ => ([(0, none), (3, some (Except.ok (⟨[], ()⟩ : Response Unit)))] :
          List (Nat × Option (Except Unit (Response Unit)))))
        (⟨"/pkg.Service/Method", ()⟩ : Request Unit) =
      some ((⟨"/pkg.Service", "Method", none⟩ : MetricsFuture),
        ([(0, none), (3, some (Except.ok (⟨[], ()⟩ : Response Unit)))] :
          List (Nat × Option (Except Unit (Response Unit))))) ∧
    ((runPolls (B := Unit) (E := Unit) ⟨"/pkg.Service", "Method", none⟩
        [(0, none), (3, some (Except.ok ⟨[], ()⟩))]).events.all
      (labelsMatch "/pkg.Service" "Method")) = true := by
  have h := labels_byte_identical_across_lifecycle
    (C := Unit) (E := Unit) (⟨"/pkg.Service/Method", ()⟩ : Request Unit)
    "/pkg.Service" "Method"
    (fun _ => ([(0, none), (3, some (Except.ok (⟨[], ()⟩ : Response Unit)))] :
      List (Nat × Option (Except Unit (Response Unit))))) (by decide)
  exact ⟨h.1, h.2 _⟩

/-- Claim C8: `build` fails only if the meter rejects the creation of one of
the four instruments, and then it returns exactly that creation error to its
caller (propagated, not swallowed); otherwise it succeeds and the resulting
layer holds all four created instruments — never a partial registry. -/
theorem build_fails_only_on_instrument_rejection {ε Cu Hi Ud : Type}
    (gp : MeterProvider ε Cu Hi Ud) (b : MetricsLayerBuilder ε Cu Hi Ud) :
    (∃ c1 c2 hg u,
      ((b.provider.getD gp).meter "tonic").u64Counter
          ⟨"grpc_server_started", "Total number of RPCs started on the server."⟩ = .ok c1 ∧
      ((b.provider.getD gp).meter "tonic").u64Counter
          ⟨"grpc_server_handled", "Total number of RPCs completed on the server."⟩ = .ok c2 ∧
      ((b.provider.getD gp).meter "tonic").f64Histogram
          ⟨"grpc_server_handling_duration_seconds", "Rpc call duration",
            some (b.buckets.getD DEFAULT_HISTOGRAM_BUCKETS)⟩ = .ok hg ∧
      ((b.provider.getD gp).meter "tonic").i64UpDownCounter
          ⟨"grpc_server_active_requests", "Current number of active server requests."⟩ = .ok u ∧
      b.build gp = .ok ⟨⟨c1, c2, hg, u⟩⟩) ∨
    (∃ e, b.build gp = .error e ∧
      (((b.provider.getD gp).meter "tonic").u64Counter
          ⟨"grpc_server_started", "Total number of RPCs started on the server."⟩ = .error e ∨
       ((b.provider.getD gp).meter "tonic").u64Counter
          ⟨"grpc_server_handled", "Total number of RPCs completed on the server."⟩ = .error e ∨
       ((b.provider.getD gp).meter "tonic").f64Histogram
          ⟨"grpc_server_handling_duration_seconds", "Rpc call duration",
            some (b.buckets.getD DEFAULT_HISTOGRAM_BUCKETS)⟩ = .error e ∨
       ((b.provider.getD gp).meter "tonic").i64UpDownCounter
          ⟨"grpc_server_active_requests", "Current number of active server requests."⟩ = .error e)) := by
  rcases h1 : ((b.provider.getD gp).meter "tonic").u64Counter
      ⟨"grpc_server_started", "Total number of RPCs started on the server."⟩ with e | c1
  · exact Or.inr ⟨e, by simp [MetricsLayerBuilder.build, h1], Or.inl rfl⟩
  rcases h2 : ((b.provider.getD gp).meter "tonic").u64Counter
      ⟨"grpc_server_handled", "Total number of RPCs completed on the server."⟩ with e | c2
  · exact Or.inr ⟨e, by simp [MetricsLayerBuilder.build, h1, h2], Or.inr (Or.inl rfl)⟩
  rcases h3 : ((b.provider.getD gp).meter "tonic").f64Histogram
      ⟨"grpc_server_handling_duration_seconds", "Rpc call duration",
        some (b.buckets.getD DEFAULT_HISTOGRAM_BUCKETS)⟩ with e | hg
  · exact Or.inr ⟨e, by simp [MetricsLayerBuilder.build, h1, h2, h3],
      Or.inr (Or.inr (Or.inl rfl))⟩
  rcases h4 : ((b.provider.getD gp).meter "tonic").i64UpDownCounter
      ⟨"grpc_server_active_requests", "Current number of active server requests."⟩ with e | u
  · exact Or.inr ⟨e, by simp [MetricsLayerBuilder.build, h1, h2, h3, h4],
      Or.inr (Or.inr (Or.inr rfl))⟩
  exact Or.inl ⟨c1, c2, hg, u, rfl, rfl, rfl, rfl,
    by simp [MetricsLayerBuilder.build, h1, h2, h3, h4]⟩

/-- Claim C9: with no custom buckets, `build` configures the handling-duration
histogram with exactly the default boundary sequence
[0.001, 0.005, 0.01, 0.015, 0.02, 0.025, 0.5, 0.75, 1.0, 2.0] seconds; with
custom buckets supplied via `with_buckets`, those are used instead.  Observed
through the free meter, whose instruments are the creation requests themselves. -/
theorem histogram_buckets_default_and_custom (bs : List ℚ) :
    ((MetricsLayerBuilder.new Unit CounterBuilder HistogramBuilder CounterBuilder).build
        (recordingProvider Unit)).map
        (fun l => l.metrics.handling_duration.boundaries) =
      .ok (some [0.001, 0.005, 0.01, 0.015, 0.02, 0.025, 0.5, 0.75, 1.0, 2.0]) ∧
    (((MetricsLayerBuilder.new Unit CounterBuilder HistogramBuilder CounterBuilder).with_buckets
        bs).build (recordingProvider Unit)).map
        (fun l => l.metrics.handling_duration.boundaries) =
      .ok (some bs) := by
  constructor
  · show (Except.ok (some DEFAULT_HISTOGRAM_BUCKETS) : Except Unit (Option (List ℚ))) = _
    norm_num [DEFAULT_HISTOGRAM_BUCKETS]
  · rfl

/-- `splitOnceChar` splits at the first occurrence of the separator. -/
theorem splitOnceChar_not_mem (c : Char) (xs ys : List Char) (h : c ∉ xs) :
    splitOnceChar c (xs ++ c :: ys) = some (xs, ys) := by
  induction xs with
  | nil => simp [splitOnceChar]
  | cons x xs ih =>
    have hx : ¬ x = c := fun hc => h (hc ▸ List.mem_cons_self x xs)
    rw [List.cons_append]
    rw [splitOnceChar, if_neg hx, ih (fun hm => h (List.mem_cons_of_mem _ hm))]

/-- `rsplitOnce` on a character list with a known last separator. -/
theorem rsplitOnce_append (pre mth : List Char) (h : '/' ∉ mth) :
    rsplitOnce ⟨pre ++ '/' :: mth⟩ = some (⟨pre⟩, ⟨mth⟩) := by
  unfold rsplitOnce
  rw [show (String.mk (pre ++ '/' :: mth)).data = pre ++ '/' :: mth from rfl]
  rw [show (pre ++ '/' :: mth).reverse = mth.reverse ++ '/' :: pre.reverse by simp]
  rw [splitOnceChar_not_mem _ _ _ (by simpa using h)]
  simp

/-- Claim C10: for a request path of the form `/<service>/<method>` (any
service prefix, a method segment containing no separator), the parse yields
the grpc_service value "/" ++ service — retaining the leading slash and
everything before the last separator — and the grpc_method value equal to
the segment after the last separator; `MetricsService::call` stores exactly
this pair in the future that labels every data point. -/
theorem path_split_service_method {B F : Type} (service method : String) (b : B)
    (innerCall : Request B → F) (h : '/' ∉ method.data) :
    rsplitOnce ("/" ++ service ++ "/" ++ method) = some ("/" ++ service, method) ∧
    MetricsService.call innerCall ⟨"/" ++ service ++ "/" ++ method, b⟩ =
      some (⟨"/" ++ service, method, none⟩,
        innerCall ⟨"/" ++ service ++ "/" ++ method, b⟩) := by
  have hpath : ("/" ++ service ++ "/" ++ method : String) =
      ⟨('/' :: service.data) ++ '/' :: method.data⟩ := by
    apply String.ext
    simp [String.data_append]
  have hsvc : ("/" ++ service : String) = ⟨'/' :: service.data⟩ := by
    apply String.ext
    simp [String.data_append]
  have hr : rsplitOnce ("/" ++ service ++ "/" ++ method) =
      some ("/" ++ service, method) := by
    rw [hpath, rsplitOnce_append _ _ h, hsvc]
  exact ⟨hr, by simp [MetricsService.call, hr]⟩

/-- Witness for C10 at the concrete path "/pkg.Service/Method". -/
theorem path_split_service_method_witness :
    rsplitOnce ("/" ++ "pkg.Service" ++ "/" ++ "Method") =
      some ("/" ++ "pkg.Service", "Method") ∧
    MetricsService.call (B := Unit) (F := Unit) (fun _ => ())
        ⟨"/" ++ "pkg.Service" ++ "/" ++ "Method", ()⟩ =
      some ((⟨"/" ++ "pkg.Service", "Method", none⟩ : MetricsFuture), ()) :=
  path_split_service_method "pkg.Service" "Method" () (fun _ => ()) (by decide)
